import Mathlib

/-!
Shallow embedding of the Duel engine of the flashcode repository
(`backend/services/duel_service.py`, with the XP-credit step of
`backend/services/gamification_service.py`).

Conventions of the embedding:

* Identities are `Int`: genuine participants have positive ids, bot
  identities are negative (one per difficulty tier), matching the
  sign-encoded identifier space of the source.
* Timestamps are `Int` seconds in UTC.  The source normalises
  timezone-naive datetimes by attaching UTC (`replace(tzinfo=utc)`),
  which changes no stored value, so a single integer represents both
  aware and naive timestamps.
* The SQLAlchemy session is modelled by explicit state passing: every
  operation takes the committed store and returns the store after its
  final `commit()`.  The deployment's session factory (the repository's
  `conftest.py` sessionmaker) disables autoflush, so queries issued
  during an operation read only rows committed before the call; pending
  `add`s become visible at the closing `commit()`.  `rollback()` restores
  the committed store.
* The code-execution sandbox, the bot's random correctness roll, the
  bot's random jitter, and the XP ledger's failure behaviour are
  oracles passed in as parameters (`judgeCorrect`, `botCorrect`,
  `botJitter`, `LedgerOutcome`).
* Fallible operations return `Except DuelError (...)`; every `raise` in
  the source precedes any mutation, so an error result carries no store:
  the committed state is unchanged.
-/

namespace Flashcode

/-- Duel lifecycle states (`DuelStatusEnum`). -/
inductive DuelStatus
  | waiting
  | active
  | completed
deriving DecidableEq, Repr

/-- The columns of `Question` that the duel engine reads. -/
structure Question where
  id : Nat
  qtype : String
  difficulty : Int
  xp_reward : Nat
deriving DecidableEq, Repr

/-- The columns of `User` that the duel engine touches. -/
structure Account where
  id : Int
  xp : Int
deriving DecidableEq, Repr

/-- A recorded `QuestionAttempt` row. -/
structure Attempt where
  user_id : Int
  question_id : Nat
  is_correct : Bool
  time_taken : Int
  created_at : Int
deriving DecidableEq, Repr

/-- A `Duel` row. -/
structure Duel where
  id : Nat
  challenger_id : Int
  opponent_id : Option Int
  question_id : Nat
  status : DuelStatus
  winner_id : Option Int
  created_at : Int
  completed_at : Option Int
deriving DecidableEq, Repr

/-- The mutable tables the duel engine touches.  `nextDuelId` models the
autoincrementing primary key of the `duels` table. -/
structure Store where
  duels : List Duel
  attempts : List Attempt
  users : List Account
  nextDuelId : Nat
deriving DecidableEq, Repr

/-- The read-only `questions` table. -/
abbrev Env : Type := List Question

/-- `db.query(Question).filter(Question.id == qid).first()` -/
def getQuestion (env : Env) (qid : Nat) : Option Question :=
  env.find? (fun q => q.id == qid)

/-- `db.query(Duel).filter(Duel.id == did).first()` -/
def getDuel (s : Store) (did : Nat) : Option Duel :=
  s.duels.find? (fun d => d.id == did)

/-- `db.query(User).filter(User.id == uid).first()` -/
def getUser (s : Store) (uid : Int) : Option Account :=
  s.users.find? (fun u => u.id == uid)

/-- Whether a duel row has `uid` as challenger or opponent. -/
def involves (uid : Int) (d : Duel) : Bool :=
  d.challenger_id == uid || d.opponent_id == some uid

/-- `status.in_([WAITING, ACTIVE])` -/
def isOpen (d : Duel) : Bool :=
  d.status == DuelStatus.waiting || d.status == DuelStatus.active

/-- The `existing_duel` query of `create_duel`/`join_duel`: does `uid`
appear in some WAITING or ACTIVE duel? -/
def hasActiveDuel (s : Store) (uid : Int) : Bool :=
  s.duels.any (fun d => involves uid d && isOpen d)

/-- Errors raised by the service (`ValueError` messages in the source). -/
inductive DuelError
  | questionNotFound
  | unsupportedQuestionType
  | alreadyInDuel
  | duelNotFound
  | duelNotJoinable
  | cannotJoinOwnDuel
  | duelHasOpponent
  | duelNotActive
  | notAParticipant
  | duelCompleted
deriving DecidableEq, Repr

/-- Replace the duel row with id `d.id` by `d` (an ORM attribute update
on the row followed by commit). -/
def setDuel (s : Store) (d : Duel) : Store :=
  { s with duels := s.duels.map (fun e => if e.id == d.id then d else e) }

/-- The most recent `QuestionAttempt` of `uid` on `qid` created at or
after `since`: `filter(...).order_by(created_at.desc()).first()`.  Ties
on `created_at` resolve to the later-inserted row. -/
def latestAttemptSince (s : Store) (uid : Int) (qid : Nat) (since : Int) :
    Option Attempt :=
  (s.attempts.filter
      (fun a => a.user_id == uid && a.question_id == qid && since ≤ a.created_at)).foldl
    (fun best a =>
      match best with
      | none => some a
      | some b => if b.created_at ≤ a.created_at then some a else some b)
    none

/-- `not attempt or not attempt.is_correct` -/
def attemptAbsentOrWrong : Option Attempt → Bool
  | none => true
  | some a => !a.is_correct

/-- `_attempt_matchmaking`'s peer query: another WAITING duel on the same
question, by a different challenger, with no opponent yet. -/
def findPeerDuel (s : Store) (duel : Duel) : Option Duel :=
  s.duels.find? (fun d =>
    d.status == DuelStatus.waiting && d.question_id == duel.question_id &&
    d.challenger_id != duel.challenger_id && d.id != duel.id &&
    d.opponent_id == none)

/-- The store after a successful peer match: the current duel gains the
peer's challenger as `opponent_id` and becomes ACTIVE, and the peer's
own duel row is deleted. -/
def matchPeerStore (s : Store) (duel peer : Duel) : Store :=
  let d' : Duel :=
    { duel with opponent_id := some peer.challenger_id,
                status := DuelStatus.active }
  let ds :=
    (s.duels.map (fun e => if e.id == duel.id then d' else e)).filter
      (fun e => e.id ≠ peer.id)
  { s with duels := ds }

/-- `_attempt_matchmaking(duel_id)`.  `now` is `datetime.now(utc)` in
seconds; naive `created_at` values are already UTC in this embedding. -/
def attemptMatchmaking (env : Env) (s : Store) (duel_id : Nat) (now : Int) :
    Store × Bool :=
  match getDuel s duel_id with
  | none => (s, false)
  | some duel =>
    if duel.status = DuelStatus.waiting then
      match findPeerDuel s duel with
      | some peer => (matchPeerStore s duel peer, true)
      | none =>
        -- no human opponent: after 30 seconds of waiting, assign a bot
        if now - duel.created_at > 30 then
          match getQuestion env duel.question_id with
          | none => (s, false)
          | some q =>
            let botId : Int := -(q.difficulty)
            if botId ≠ 0 then
              (setDuel s
                { duel with opponent_id := some botId,
                            status := DuelStatus.active }, true)
            else (s, false)
        else (s, false)
    else (s, false)

/-- `create_duel(duel_data, challenger_id)`.  Returns the new store and
the id of the created duel. -/
def createDuel (env : Env) (s : Store) (question_id : Nat)
    (challenger_id : Int) (now : Int) : Except DuelError (Store × Nat) :=
  match getQuestion env question_id with
  | none => Except.error DuelError.questionNotFound
  | some q =>
    if q.qtype ≠ "code" then Except.error DuelError.unsupportedQuestionType
    else if hasActiveDuel s challenger_id then
      Except.error DuelError.alreadyInDuel
    else
      let d : Duel :=
        { id := s.nextDuelId, challenger_id := challenger_id,
          opponent_id := none, question_id := question_id,
          status := DuelStatus.waiting, winner_id := none,
          created_at := now, completed_at := none }
      let s1 : Store :=
        { s with duels := s.duels ++ [d], nextDuelId := s.nextDuelId + 1 }
      -- best-effort matchmaking; failures do not fail creation
      Except.ok ((attemptMatchmaking env s1 d.id now).1, d.id)

/-- `join_duel(duel_id, user_id)`. -/
def joinDuel (s : Store) (duel_id : Nat) (user_id : Int) :
    Except DuelError Store :=
  match getDuel s duel_id with
  | none => Except.error DuelError.duelNotFound
  | some duel =>
    if duel.status ≠ DuelStatus.waiting then
      Except.error DuelError.duelNotJoinable
    else if duel.challenger_id == user_id then
      Except.error DuelError.cannotJoinOwnDuel
    else if duel.opponent_id ≠ none then
      Except.error DuelError.duelHasOpponent
    else if hasActiveDuel s user_id then
      Except.error DuelError.alreadyInDuel
    else
      Except.ok (setDuel s
        { duel with opponent_id := some user_id,
                    status := DuelStatus.active })

/-- Behaviour of the XP ledger on this call: the `award_xp` body either
runs normally or raises somewhere in its `try` block. -/
inductive LedgerOutcome
  | ok
  | raises
deriving DecidableEq, Repr

/-- `GamificationService.award_xp(uid, amount)` called on the same
session as the duel mutations.  On an internal exception the `except`
branch calls `session.rollback()`, which discards every uncommitted
change of the session and restores the committed store.  When the user
row is missing it returns `False` without rolling back. -/
def awardXp (working committed : Store) (uid : Int) (amount : Int)
    (ledger : LedgerOutcome) : Store :=
  match getUser working uid with
  | none => working
  | some u =>
    match ledger with
    | LedgerOutcome.raises => committed
    | LedgerOutcome.ok =>
      { working with users :=
          working.users.map (fun v =>
            if v.id == u.id then { v with xp := v.xp + amount } else v) }

/-- `abs(bot_id)` mapped through the `base_times` table of
`_simulate_bot_solution`. -/
def botBaseTime (difficulty : Nat) : Int :=
  match difficulty with
  | 1 => 15
  | 2 => 12
  | 3 => 8
  | 4 => 5
  | 5 => 3
  | _ => 10

/-- The bot's simulated response time:
`max(1, base_time + randint(-2, 3))`, with the random draw passed in as
`jitter`. -/
def simulateBotTime (botId : Int) (jitter : Int) : Int :=
  max 1 (botBaseTime botId.natAbs + jitter)

/-- Winner from the human-vs-human branch of `submit_solution`: a
correct submission wins when the other side's latest recorded attempt
is absent or incorrect. -/
def humanWinner (duel : Duel) (challengerAttempt opponentAttempt : Option Attempt)
    (uid : Int) (judgeCorrect : Bool) : Option Int :=
  if judgeCorrect then
    if uid == duel.challenger_id then
      if attemptAbsentOrWrong opponentAttempt then some uid else none
    else
      if attemptAbsentOrWrong challengerAttempt then some uid else none
  else none

/-- Full winner determination of `submit_solution`, including the bot
branch that may overwrite the human-branch result. -/
def duelWinner (duel : Duel) (challengerAttempt opponentAttempt : Option Attempt)
    (uid : Int) (judgeCorrect : Bool) (time_taken : Int)
    (botCorrect : Bool) (botJitter : Int) : Option Int :=
  let w0 := humanWinner duel challengerAttempt opponentAttempt uid judgeCorrect
  match duel.opponent_id with
  | some oid =>
    if oid < 0 then
      if judgeCorrect && !botCorrect then some uid
      else if !judgeCorrect && botCorrect then some oid
      else if judgeCorrect && botCorrect then
        if time_taken < simulateBotTime oid botJitter then some uid else some oid
      else w0
    else w0
  | none => w0

/-- `duel.opponent_id and duel.opponent_id < 0` (Python truthiness:
`None` and `0` short-circuit to false). -/
def opponentNegative (duel : Duel) : Bool :=
  match duel.opponent_id with
  | some oid => decide (oid < 0)
  | none => false

/-- XP credited to a duel winner: `base_xp + int(base_xp * 0.5)`.
Multiplying an integer float-exactly by 0.5 and truncating is floor
division by 2. -/
def duelXp (q : Question) : Nat :=
  q.xp_reward + q.xp_reward / 2

/-- The outcome bundle returned by `submit_solution`. -/
structure SubmitResult where
  winner_id : Option Int
  xp_awarded : Nat
deriving DecidableEq, Repr

/-- The `challenger_attempt` query of `submit_solution`: the
challenger's most recent attempt on the duel's question since the duel
was created.  With autoflush off it sees only committed rows. -/
def recordedChallengerAttempt (s : Store) (duel : Duel) : Option Attempt :=
  latestAttemptSince s duel.challenger_id duel.question_id duel.created_at

/-- The `opponent_attempt` query of `submit_solution`: only issued for a
genuine (positive-id) opponent, `None` for a bot or while unmatched. -/
def recordedOpponentAttempt (s : Store) (duel : Duel) : Option Attempt :=
  match duel.opponent_id with
  | some oid =>
    if oid > 0 then latestAttemptSince s oid duel.question_id duel.created_at
    else none
  | none => none

/-- The completion test of `submit_solution` when no winner was
determined: `challenger_attempt and (opponent_attempt or opponent_id < 0)`. -/
def bothSidesRecorded (s : Store) (duel : Duel) : Bool :=
  (recordedChallengerAttempt s duel).isSome &&
    ((recordedOpponentAttempt s duel).isSome || opponentNegative duel)

/-- The post-check body of `submit_solution` (everything after the
precondition raises): record the attempt, look up both sides' latest
committed attempts, determine a winner, complete the duel when a winner
exists or both sides have submitted, and credit the winner's XP. -/
def adjudicate (s : Store) (duel : Duel) (q : Question) (uid : Int)
    (judgeCorrect : Bool) (time_taken : Int) (botCorrect : Bool)
    (botJitter : Int) (ledger : LedgerOutcome) (now : Int) :
    Store × SubmitResult :=
  let working : Store :=
    { s with attempts := s.attempts ++
        [{ user_id := uid, question_id := duel.question_id,
           is_correct := judgeCorrect, time_taken := time_taken,
           created_at := now }] }
  -- autoflush is off: these queries see only rows committed before the call
  let challengerAttempt := recordedChallengerAttempt s duel
  let opponentAttempt := recordedOpponentAttempt s duel
  let winner :=
    duelWinner duel challengerAttempt opponentAttempt uid judgeCorrect
      time_taken botCorrect botJitter
  -- `if winner_id or (challenger_attempt and (opponent_attempt or opponent_id < 0))`
  if winner.isSome || bothSidesRecorded s duel then
    let d' : Duel :=
      { duel with status := DuelStatus.completed, winner_id := winner,
                  completed_at := some now }
    let w1 := setDuel working d'
    match winner with
    | some w =>
      if 0 < w then
        let xp := duelXp q
        (awardXp w1 s w (Int.ofNat xp) ledger,
         { winner_id := winner,
           xp_awarded := if winner == some uid then xp else 0 })
      else (w1, { winner_id := winner, xp_awarded := 0 })
    | none => (w1, { winner_id := none, xp_awarded := 0 })
  else (working, { winner_id := winner, xp_awarded := 0 })

/-- `submit_solution(duel_id, user_id, code, language, time_taken)`.
The Execution Judge's verdict on `(code, language)` enters as
`judgeCorrect`; the bot simulation's random draws enter as `botCorrect`
and `botJitter`; the ledger's failure behaviour as `ledger`. -/
def submitSolution (env : Env) (s : Store) (duel_id : Nat) (uid : Int)
    (judgeCorrect : Bool) (time_taken : Int) (botCorrect : Bool)
    (botJitter : Int) (ledger : LedgerOutcome) (now : Int) :
    Except DuelError (Store × SubmitResult) :=
  match getDuel s duel_id with
  | none => Except.error DuelError.duelNotFound
  | some duel =>
    if duel.status ≠ DuelStatus.active then
      Except.error DuelError.duelNotActive
    else if duel.challenger_id ≠ uid ∧ duel.opponent_id ≠ some uid then
      Except.error DuelError.notAParticipant
    else if duel.status = DuelStatus.completed then
      -- dead branch in the source: unreachable after the ACTIVE check
      Except.error DuelError.duelCompleted
    else
      match getQuestion env duel.question_id with
      | none => Except.error DuelError.questionNotFound
      | some q =>
        Except.ok (adjudicate s duel q uid judgeCorrect time_taken
          botCorrect botJitter ledger now)

/-- `cleanup_old_duels()`: delete every WAITING duel older than 5
minutes (300 seconds) and return how many were deleted. -/
def cleanupOldDuels (s : Store) (now : Int) : Store × Nat :=
  let isOld : Duel → Bool := fun d =>
    d.status == DuelStatus.waiting && d.created_at < now - 300
  ({ s with duels := s.duels.filter (fun d => !isOld d) },
   (s.duels.filter isOld).length)

/-! ### Concrete scenario stores, used to exercise the model -/

/-- A one-question table: question 1 is code-type, difficulty 3, base
reward 30. -/
def exEnv : Env := [⟨1, "code", 3, 30⟩]

/-- Two seeded user rows. -/
def exStore0 : Store := ⟨[], [], [⟨1, 100⟩, ⟨2, 150⟩], 1⟩

/-- Extract the store of a successful operation, falling back to the
input store (used only on calls known to succeed). -/
def okStore {α : Type} (r : Except DuelError (Store × α)) (fb : Store) : Store :=
  match r with
  | Except.ok (s, _) => s
  | Except.error _ => fb

/-- Same, for `joinDuel`. -/
def okStoreJ (r : Except DuelError Store) (fb : Store) : Store :=
  match r with
  | Except.ok s => s
  | Except.error _ => fb

/-- User 1 creates a duel on question 1 at time 0 (no peer yet). -/
def exWaiting : Store := okStore (createDuel exEnv exStore0 1 1 0) exStore0

/-- User 2 joins duel 1: the duel is ACTIVE between users 1 and 2. -/
def exActive : Store := okStoreJ (joinDuel exWaiting 1 2) exWaiting

/-- The opponent (user 2) submits an incorrect solution at time 5. -/
def exOppWrong : Store :=
  okStore (submitSolution exEnv exActive 1 2 false 5 false 0 LedgerOutcome.ok 5) exActive

/-- The challenger (user 1) also submits an incorrect solution at
time 6; now both sides have committed incorrect attempts. -/
def exBothWrong : Store :=
  okStore (submitSolution exEnv exOppWrong 1 1 false 6 false 0 LedgerOutcome.ok 6) exOppWrong

/-- Matchmaking at time 40 on the unmatched waiting duel assigns the
tier-3 bot: the duel is ACTIVE between user 1 and bot -3. -/
def exBotDuel : Store := (attemptMatchmaking exEnv exWaiting 1 40).1

/-- From `exOppWrong`, the challenger submits a correct solution at
time 9 and wins (ledger behaving normally). -/
def exWon : Store :=
  okStore (submitSolution exEnv exOppWrong 1 1 true 9 false 0 LedgerOutcome.ok 9)
    exOppWrong

/-- From `exBothWrong`, the challenger submits yet another incorrect
solution at time 7: no winner is determined, but both sides have
recorded attempts. -/
def exNoWinnerDone : Store :=
  okStore (submitSolution exEnv exBothWrong 1 1 false 7 false 0 LedgerOutcome.ok 7)
    exBothWrong

/-! ### Store invariant and reachability -/

/-- Number of WAITING/ACTIVE duels in which `P` is challenger or
opponent. -/
def activeCount (s : Store) (P : Int) : Nat :=
  s.duels.countP (fun d => involves P d && isOpen d)

/-- Well-formedness of the duel store: duel ids are unique and below
the id allocator, and every genuine (positive-id) participant sits in
at most one WAITING/ACTIVE duel. -/
def StoreInv (s : Store) : Prop :=
  (s.duels.map Duel.id).Nodup ∧
  (∀ d ∈ s.duels, d.id < s.nextDuelId) ∧
  (∀ P : Int, 0 < P → activeCount s P ≤ 1)

/-- Stores reachable through the duel engine's operations, starting
from any store with no duels.  Other services may add attempt rows and
modify user rows between duel operations (`external`). -/
inductive Reachable (env : Env) : Store → Prop
  | init (attempts : List Attempt) (users : List Account) (n : Nat) :
      Reachable env ⟨[], attempts, users, n⟩
  | created (s s' : Store) (qid : Nat) (uid : Int) (now : Int) (did : Nat) :
      Reachable env s → createDuel env s qid uid now = Except.ok (s', did) →
      Reachable env s'
  | joined (s s' : Store) (did : Nat) (uid : Int) :
      Reachable env s → joinDuel s did uid = Except.ok s' → Reachable env s'
  | matched (s : Store) (did : Nat) (now : Int) :
      Reachable env s → Reachable env (attemptMatchmaking env s did now).1
  | submitted (s s' : Store) (did : Nat) (uid : Int) (jc : Bool) (tt : Int)
      (bc : Bool) (bj : Int) (lg : LedgerOutcome) (now : Int)
      (r : SubmitResult) :
      Reachable env s →
      submitSolution env s did uid jc tt bc bj lg now = Except.ok (s', r) →
      Reachable env s'
  | cleaned (s : Store) (now : Int) :
      Reachable env s → Reachable env (cleanupOldDuels s now).1
  | external (s : Store) (attempts : List Attempt) (users : List Account) :
      Reachable env s →
      Reachable env { s with attempts := attempts, users := users }

/-- A store mixing an ACTIVE duel (1 vs 2) with a WAITING duel by
user 3, reached through create, join, create. -/
def exMixed : Store := okStore (createDuel exEnv exActive 1 3 5) exActive

/-! ### Helper lemmas -/

/-- Counting a disjunction is bounded by the sum of the counts. -/
theorem countP_or_le {α : Type} (l : List α) (p q : α → Bool) :
    l.countP (fun a => p a || q a) ≤ l.countP p + l.countP q := by
  induction l with
  | nil => simp
  | cons a t ih =>
    cases hp : p a <;> cases hq : q a <;>
      simp [List.countP_cons, hp, hq] <;> omega

/-- Counting splits along any second predicate. -/
theorem countP_and_split {α : Type} (l : List α) (p q : α → Bool) :
    l.countP p =
      l.countP (fun a => p a && q a) + l.countP (fun a => p a && !q a) := by
  induction l with
  | nil => simp
  | cons a t ih =>
    cases hp : p a <;> cases hq : q a <;>
      simp [List.countP_cons, hp, hq] <;> omega

/-- With unique ids, at most one duel row matches a given id. -/
theorem countP_id_le_one (l : List Duel) (hnd : (l.map Duel.id).Nodup)
    (k : Nat) : l.countP (fun e => e.id == k) ≤ 1 := by
  have h1 : l.countP (fun e => e.id == k) =
      (l.map Duel.id).countP (fun x => x == k) := by
    rw [List.countP_map]
    rfl
  rw [h1, ← List.count_eq_countP]
  exact List.nodup_iff_count_le_one.mp hnd k

/-- The id-keyed replacement map leaves the id projection unchanged. -/
theorem map_upd_map_id (l : List Duel) (k : Nat) (d' : Duel) (hk : d'.id = k) :
    (l.map (fun e => if e.id == k then d' else e)).map Duel.id =
      l.map Duel.id := by
  rw [List.map_map]
  apply List.map_congr_left
  intro x _
  by_cases hx : x.id = k
  · simp [hx, hk]
  · simp [hx]

/-- A caller with no open duel contributes zero to `activeCount`. -/
theorem activeCount_eq_zero_of_not_busy {s : Store} {P : Int}
    (h : hasActiveDuel s P = false) : activeCount s P = 0 := by
  unfold hasActiveDuel at h
  unfold activeCount
  rw [List.countP_eq_zero]
  intro a ha
  have := List.any_eq_false.mp h a ha
  simpa using this

/-- The invariant only constrains the duels table and the allocator. -/
theorem storeInv_congr {s s' : Store} (hd : s'.duels = s.duels)
    (hn : s'.nextDuelId = s.nextDuelId) (h : StoreInv s) : StoreInv s' := by
  obtain ⟨h1, h2, h3⟩ := h
  refine ⟨?_, ?_, ?_⟩
  · rw [hd]; exact h1
  · rw [hd, hn]; exact h2
  · intro P hP
    unfold activeCount
    rw [hd]
    exact h3 P hP

/-- Replacing one row by a row that (for positive participants) opens
no new membership preserves the invariant. -/
theorem storeInv_setDuel_mono (s : Store) (e d' : Duel) (he : e ∈ s.duels)
    (hid : d'.id = e.id)
    (hmono : ∀ P : Int, 0 < P → (involves P d' && isOpen d') = true →
      (involves P e && isOpen e) = true)
    (h : StoreInv s) : StoreInv (setDuel s d') := by
  obtain ⟨hnd, hb, hc⟩ := h
  refine ⟨?_, ?_, ?_⟩
  · unfold setDuel
    dsimp only
    rw [map_upd_map_id s.duels d'.id d' rfl]
    exact hnd
  · intro x hx
    unfold setDuel at hx
    simp only [List.mem_map] at hx
    obtain ⟨y, hy, hxy⟩ := hx
    have hxid : x.id = y.id := by
      rw [← hxy]
      by_cases hyid : y.id = d'.id
      · simp [hyid]
      · simp [hyid]
    show x.id < s.nextDuelId
    rw [hxid]
    exact hb y hy
  · intro P hP
    unfold activeCount setDuel
    dsimp only
    rw [List.countP_map]
    refine le_trans (List.countP_mono_left ?_) (hc P hP)
    intro x hx hpx
    by_cases hxid : x.id = d'.id
    · have hxe : x = e :=
        List.inj_on_of_nodup_map hnd hx he (by rw [hxid, hid])
      have hupd : (if x.id == d'.id then d' else x) = d' := by simp [hxid]
      rw [Function.comp_apply, hupd] at hpx
      rw [hxe]
      exact hmono P hP hpx
    · have hupd : (if x.id == d'.id then d' else x) = x := by simp [hxid]
      rw [Function.comp_apply, hupd] at hpx
      exact hpx

/-- Replacing one row grows each participant's open-duel count by at
most one. -/
theorem activeCount_setDuel_le_succ (s : Store) (d' : Duel)
    (hnd : (s.duels.map Duel.id).Nodup) (P : Int) :
    activeCount (setDuel s d') P ≤ activeCount s P + 1 := by
  unfold activeCount setDuel
  dsimp only
  rw [List.countP_map]
  have h1 : s.duels.countP
      ((fun d => involves P d && isOpen d) ∘
        (fun e => if e.id == d'.id then d' else e)) ≤
      s.duels.countP (fun x =>
        (involves P x && isOpen x) || (x.id == d'.id)) := by
    apply List.countP_mono_left
    intro x _ hpx
    by_cases hxid : x.id = d'.id
    · simp [hxid]
    · have hupd : (if x.id == d'.id then d' else x) = x := by simp [hxid]
      rw [Function.comp_apply, hupd] at hpx
      simp [hpx]
  refine le_trans h1 (le_trans (countP_or_le _ _ _) ?_)
  have h2 := countP_id_le_one s.duels hnd d'.id
  omega

/-- Peer matching — the current WAITING duel gains the peer's
challenger as opponent and turns ACTIVE while the peer's WAITING duel
row is deleted — preserves the invariant: the peer's challenger loses
one open duel and gains one. -/
theorem storeInv_matchPeer (s : Store) (duel peer : Duel)
    (hduel : duel ∈ s.duels) (hpeerMem : peer ∈ s.duels)
    (hw : duel.status = DuelStatus.waiting)
    (hpw : peer.status = DuelStatus.waiting)
    (h : StoreInv s) :
    StoreInv (matchPeerStore s duel peer) := by
  obtain ⟨hnd, hb, hc⟩ := h
  unfold matchPeerStore
  dsimp only
  refine ⟨?_, ?_, ?_⟩
  · apply List.Nodup.sublist (List.Sublist.map Duel.id (List.filter_sublist _))
    rw [map_upd_map_id s.duels duel.id
      { duel with opponent_id := some peer.challenger_id,
                  status := DuelStatus.active } rfl]
    exact hnd
  · intro x hx
    rw [List.mem_filter] at hx
    obtain ⟨hx, _⟩ := hx
    simp only [List.mem_map] at hx
    obtain ⟨y, hy, hxy⟩ := hx
    have hxid : x.id = y.id := by
      rw [← hxy]
      by_cases hyid : y.id = duel.id
      · simp [hyid]
      · simp [hyid]
    show x.id < s.nextDuelId
    rw [hxid]
    exact hb y hy
  · intro P hP
    unfold activeCount
    dsimp only
    rw [List.countP_filter, List.countP_map]
    by_cases hP2 : P = peer.challenger_id
    · subst hP2
      have h1 : s.duels.countP
          ((fun a => (involves peer.challenger_id a && isOpen a) &&
              decide (a.id ≠ peer.id)) ∘
            (fun e => if e.id == duel.id then
              { duel with opponent_id := some peer.challenger_id,
                          status := DuelStatus.active } else e)) ≤
          s.duels.countP (fun x =>
            ((involves peer.challenger_id x && isOpen x) &&
              decide (x.id ≠ peer.id)) || (x.id == duel.id)) := by
        apply List.countP_mono_left
        intro x _ hpx
        by_cases hxid : x.id = duel.id
        · simp [hxid]
        · have hux : (if x.id == duel.id then
              { duel with opponent_id := some peer.challenger_id,
                          status := DuelStatus.active } else x) = x := by
            simp [hxid]
          rw [Function.comp_apply, hux] at hpx
          simp only [Bool.or_eq_true]
          exact Or.inl hpx
      have h2 := countP_or_le s.duels
        (fun x => (involves peer.challenger_id x && isOpen x) &&
          decide (x.id ≠ peer.id))
        (fun x => x.id == duel.id)
      have h3 := countP_id_le_one s.duels hnd duel.id
      have h4 := countP_and_split s.duels
        (fun x => involves peer.challenger_id x && isOpen x)
        (fun x => decide (x.id ≠ peer.id))
      have h5 : 0 < s.duels.countP
          (fun x => (involves peer.challenger_id x && isOpen x) &&
            !decide (x.id ≠ peer.id)) := by
        rw [List.countP_pos_iff]
        exact ⟨peer, hpeerMem, by simp [involves, isOpen, hpw]⟩
      have h6 : s.duels.countP
          (fun x => involves peer.challenger_id x && isOpen x) ≤ 1 :=
        hc peer.challenger_id hP
      omega
    · refine le_trans (List.countP_mono_left ?_) (hc P hP)
      intro x hx hpx
      rw [Function.comp_apply] at hpx
      by_cases hxid : x.id = duel.id
      · have hxd : x = duel :=
          List.inj_on_of_nodup_map hnd hx hduel hxid
        have hux : (if x.id == duel.id then
            { duel with opponent_id := some peer.challenger_id,
                        status := DuelStatus.active } else x) =
            { duel with opponent_id := some peer.challenger_id,
                        status := DuelStatus.active } := by
          simp [hxid]
        rw [hux] at hpx
        have hch : duel.challenger_id = P := by
          simp [involves] at hpx
          rcases hpx.1 with hcase | hcase
          · exact hcase
          · exact absurd hcase.symm hP2
        rw [hxd]
        simp [involves, isOpen, hch, hw]
      · have hux : (if x.id == duel.id then
            { duel with opponent_id := some peer.challenger_id,
                        status := DuelStatus.active } else x) = x := by
          simp [hxid]
        rw [hux] at hpx
        simp at hpx
        simp [hpx.1]

/-- `tryMatch` preserves the store invariant (question difficulties
are positive, so assigned bot ids are negative). -/
theorem storeInv_attemptMatchmaking (env : Env)
    (hwf : ∀ q ∈ env, 0 < q.difficulty) (s : Store) (did : Nat) (now : Int)
    (h : StoreInv s) : StoreInv (attemptMatchmaking env s did now).1 := by
  unfold attemptMatchmaking
  cases hgd : getDuel s did with
  | none => exact h
  | some duel =>
    dsimp only
    by_cases hw : duel.status = DuelStatus.waiting
    · rw [if_pos hw]
      cases hpeer : findPeerDuel s duel with
      | some peer =>
        have hduel : duel ∈ s.duels := List.mem_of_find?_eq_some hgd
        have hpeerMem : peer ∈ s.duels := List.mem_of_find?_eq_some hpeer
        have hfacts := List.find?_some hpeer
        simp only [Bool.and_eq_true, beq_iff_eq] at hfacts
        exact storeInv_matchPeer s duel peer hduel hpeerMem hw
          hfacts.1.1.1.1 h
      | none =>
        by_cases hage : now - duel.created_at > 30
        · rw [if_pos hage]
          cases hq : getQuestion env duel.question_id with
          | none => exact h
          | some q =>
            dsimp only
            by_cases hbz : -q.difficulty ≠ 0
            · rw [if_pos hbz]
              refine storeInv_setDuel_mono s duel _
                (List.mem_of_find?_eq_some hgd) rfl ?_ h
              intro P hP hpx
              have hdiff : 0 < q.difficulty :=
                hwf q (List.mem_of_find?_eq_some hq)
              simp only [involves, isOpen, Bool.and_eq_true, Bool.or_eq_true,
                beq_iff_eq] at hpx ⊢
              refine ⟨?_, Or.inl hw⟩
              rcases hpx.1 with hcase | hcase
              · exact Or.inl hcase
              · exfalso
                injection hcase with hcase
                omega
            · rw [if_neg hbz]
              exact h
        · rw [if_neg hage]
          exact h
    · rw [if_neg hw]
      exact h

/-- Turning a WAITING duel ACTIVE with a fresh opponent who has no open
duel preserves the invariant. -/
theorem storeInv_setDuel_join (s : Store) (duel : Duel) (uid : Int)
    (hduel : duel ∈ s.duels) (hw : duel.status = DuelStatus.waiting)
    (hbusy : hasActiveDuel s uid = false) (h : StoreInv s) :
    StoreInv (setDuel s
      { duel with opponent_id := some uid, status := DuelStatus.active }) := by
  obtain ⟨hnd, hb, hc⟩ := h
  refine ⟨?_, ?_, ?_⟩
  · unfold setDuel
    dsimp only
    rw [map_upd_map_id s.duels duel.id
      { duel with opponent_id := some uid, status := DuelStatus.active } rfl]
    exact hnd
  · intro x hx
    unfold setDuel at hx
    simp only [List.mem_map] at hx
    obtain ⟨y, hy, hxy⟩ := hx
    have hxid : x.id = y.id := by
      rw [← hxy]
      by_cases hyid : y.id = duel.id
      · simp [hyid]
      · simp [hyid]
    show x.id < s.nextDuelId
    rw [hxid]
    exact hb y hy
  · intro P hP
    by_cases hPu : P = uid
    · have hbusy' : hasActiveDuel s P = false := by
        rw [hPu]
        exact hbusy
      have h0 : activeCount s P = 0 := activeCount_eq_zero_of_not_busy hbusy'
      have h1 := activeCount_setDuel_le_succ s
        { duel with opponent_id := some uid, status := DuelStatus.active }
        hnd P
      omega
    · unfold activeCount setDuel
      dsimp only
      rw [List.countP_map]
      refine le_trans (List.countP_mono_left ?_) (hc P hP)
      intro x hx hpx
      rw [Function.comp_apply] at hpx
      by_cases hxid : x.id = duel.id
      · have hxd : x = duel := List.inj_on_of_nodup_map hnd hx hduel hxid
        have hux : (if x.id == duel.id then
            { duel with opponent_id := some uid,
                        status := DuelStatus.active } else x) =
            { duel with opponent_id := some uid,
                        status := DuelStatus.active } := by
          simp [hxid]
        rw [hux] at hpx
        simp only [involves, isOpen, Bool.and_eq_true, Bool.or_eq_true,
          beq_iff_eq] at hpx ⊢
        rw [hxd]
        refine ⟨?_, Or.inl hw⟩
        rcases hpx.1 with hcase | hcase
        · exact Or.inl hcase
        · exfalso
          injection hcase with hcase
          exact hPu hcase.symm
      · have hux : (if x.id == duel.id then
            { duel with opponent_id := some uid,
                        status := DuelStatus.active } else x) = x := by
          simp [hxid]
        rw [hux] at hpx
        exact hpx

/-- `award_xp` preserves any invariant that holds of both the working
and the committed store (it changes only user rows, or rolls back). -/
theorem storeInv_awardXp (w c : Store) (uid : Int) (a : Int)
    (lg : LedgerOutcome) (hw : StoreInv w) (hcInv : StoreInv c) :
    StoreInv (awardXp w c uid a lg) := by
  unfold awardXp
  cases getUser w uid with
  | none => exact hw
  | some u =>
    cases lg with
    | raises => exact hcInv
    | ok => exact storeInv_congr rfl rfl hw

/-- The janitor preserves the store invariant. -/
theorem storeInv_cleanupOldDuels (s : Store) (now : Int) (h : StoreInv s) :
    StoreInv (cleanupOldDuels s now).1 := by
  obtain ⟨hnd, hb, hc⟩ := h
  refine ⟨?_, ?_, ?_⟩
  · exact List.Nodup.sublist
      (List.Sublist.map Duel.id (List.filter_sublist _)) hnd
  · intro x hx
    unfold cleanupOldDuels at hx ⊢
    dsimp only at hx ⊢
    rw [List.mem_filter] at hx
    exact hb x hx.1
  · intro P hP
    unfold activeCount cleanupOldDuels
    dsimp only
    rw [List.countP_filter]
    refine le_trans (List.countP_mono_left ?_) (hc P hP)
    intro x _ hpx
    rw [Bool.and_eq_true] at hpx
    exact hpx.1

/-- `create` preserves the store invariant: the caller passed the
exclusivity guard, so the appended WAITING duel is their only open
one. -/
theorem storeInv_createDuel (env : Env)
    (hwf : ∀ q ∈ env, 0 < q.difficulty) (s : Store) (qid : Nat)
    (uid : Int) (now : Int) (s' : Store) (did' : Nat) (h : StoreInv s)
    (hok : createDuel env s qid uid now = Except.ok (s', did')) :
    StoreInv s' := by
  unfold createDuel at hok
  cases hq : getQuestion env qid with
  | none =>
    rw [hq] at hok
    simp at hok
  | some q =>
    rw [hq] at hok
    dsimp only at hok
    by_cases ht : q.qtype ≠ "code"
    · rw [if_pos ht] at hok
      simp at hok
    rw [if_neg ht] at hok
    by_cases hbusy : hasActiveDuel s uid = true
    · rw [if_pos hbusy] at hok
      simp at hok
    rw [if_neg hbusy] at hok
    simp only [Except.ok.injEq, Prod.mk.injEq] at hok
    obtain ⟨hs', _⟩ := hok
    rw [← hs']
    apply storeInv_attemptMatchmaking env hwf _ _ _
    obtain ⟨hnd, hb, hc⟩ := h
    refine ⟨?_, ?_, ?_⟩
    · rw [List.map_append]
      refine List.Nodup.append hnd (by simp) ?_
      intro a ha hmem
      simp only [List.map_cons, List.map_nil, List.mem_singleton] at hmem
      subst hmem
      simp only [List.mem_map] at ha
      obtain ⟨y, hy, hya⟩ := ha
      have := hb y hy
      omega
    · intro x hx
      rw [List.mem_append] at hx
      rcases hx with hx | hx
      · have := hb x hx
        dsimp only
        omega
      · simp only [List.mem_singleton] at hx
        subst hx
        dsimp only
        omega
    · intro P hP
      unfold activeCount
      dsimp only
      rw [List.countP_append]
      have hnew : List.countP (fun d => involves P d && isOpen d)
          [{ id := s.nextDuelId, challenger_id := uid, opponent_id := none,
             question_id := qid, status := DuelStatus.waiting,
             winner_id := none, created_at := now, completed_at := none }] =
          if P = uid then 1 else 0 := by
        by_cases hPu : P = uid
        · simp [hPu, involves, isOpen]
        · simp [hPu, involves, isOpen]
          intro hc'
          exact absurd hc'.symm hPu
      rw [hnew]
      by_cases hPu : P = uid
      · have hbusy' : hasActiveDuel s P = false := by
          rw [hPu]
          simpa using hbusy
        have h0 : activeCount s P = 0 := activeCount_eq_zero_of_not_busy hbusy'
        unfold activeCount at h0
        rw [if_pos hPu]
        omega
      · rw [if_neg hPu]
        have := hc P hP
        unfold activeCount at this
        omega

/-- `join` preserves the store invariant. -/
theorem storeInv_joinDuel (s : Store) (did : Nat) (uid : Int) (s' : Store)
    (h : StoreInv s) (hok : joinDuel s did uid = Except.ok s') :
    StoreInv s' := by
  unfold joinDuel at hok
  cases hgd : getDuel s did with
  | none =>
    rw [hgd] at hok
    simp at hok
  | some duel =>
    rw [hgd] at hok
    dsimp only at hok
    by_cases h1 : duel.status ≠ DuelStatus.waiting
    · rw [if_pos h1] at hok
      simp at hok
    rw [if_neg h1] at hok
    by_cases h2 : duel.challenger_id == uid
    · rw [if_pos h2] at hok
      simp at hok
    rw [if_neg h2] at hok
    by_cases h3 : duel.opponent_id ≠ none
    · rw [if_pos h3] at hok
      simp at hok
    rw [if_neg h3] at hok
    by_cases h4 : hasActiveDuel s uid = true
    · rw [if_pos h4] at hok
      simp at hok
    rw [if_neg h4] at hok
    simp only [Except.ok.injEq] at hok
    rw [← hok]
    exact storeInv_setDuel_join s duel uid (List.mem_of_find?_eq_some hgd)
      (by simpa using h1) (by simpa using h4) h

/-- Inversion: a successful `submit` implies all precondition checks
passed and the outcome is the adjudication body's. -/
theorem submitSolution_ok_inv {env : Env} {s : Store} {did : Nat} {uid : Int}
    {jc : Bool} {tt : Int} {bc : Bool} {bj : Int} {lg : LedgerOutcome}
    {now : Int} {s' : Store} {r : SubmitResult} {d : Duel}
    (hd : getDuel s did = some d)
    (hok : submitSolution env s did uid jc tt bc bj lg now = Except.ok (s', r)) :
    ∃ q, getQuestion env d.question_id = some q ∧
      (s', r) = adjudicate s d q uid jc tt bc bj lg now := by
  unfold submitSolution at hok
  rw [hd] at hok
  dsimp only at hok
  by_cases h1 : d.status ≠ DuelStatus.active
  · rw [if_pos h1] at hok
    simp at hok
  rw [if_neg h1] at hok
  by_cases h2 : d.challenger_id ≠ uid ∧ d.opponent_id ≠ some uid
  · rw [if_pos h2] at hok
    simp at hok
  rw [if_neg h2] at hok
  by_cases h3 : d.status = DuelStatus.completed
  · rw [if_pos h3] at hok
    simp at hok
  rw [if_neg h3] at hok
  cases hq : getQuestion env d.question_id with
  | none =>
    rw [hq] at hok
    simp at hok
  | some q =>
    rw [hq] at hok
    refine ⟨q, rfl, ?_⟩
    have := hok.symm
    simpa using this

/-- `submit` preserves the store invariant under every ledger
behaviour (a rollback restores the already-valid committed store). -/
theorem storeInv_submitSolution (env : Env) (s : Store) (did : Nat)
    (uid : Int) (jc : Bool) (tt : Int) (bc : Bool) (bj : Int)
    (lg : LedgerOutcome) (now : Int) (s' : Store) (r : SubmitResult)
    (h : StoreInv s)
    (hok : submitSolution env s did uid jc tt bc bj lg now =
      Except.ok (s', r)) : StoreInv s' := by
  cases hgd : getDuel s did with
  | none =>
    unfold submitSolution at hok
    rw [hgd] at hok
    simp at hok
  | some d =>
    obtain ⟨q, hq, heq⟩ := submitSolution_ok_inv hgd hok
    have hs' : s' = (adjudicate s d q uid jc tt bc bj lg now).1 :=
      congrArg Prod.fst heq
    rw [hs']
    have hmem : d ∈ s.duels := List.mem_of_find?_eq_some hgd
    have hworking : StoreInv { s with attempts := s.attempts ++
        [{ user_id := uid, question_id := d.question_id, is_correct := jc,
           time_taken := tt, created_at := now }] } :=
      storeInv_congr rfl rfl h
    have hw1 : StoreInv (setDuel { s with attempts := s.attempts ++
        [{ user_id := uid, question_id := d.question_id, is_correct := jc,
           time_taken := tt, created_at := now }] }
        { d with status := DuelStatus.completed,
                 winner_id := duelWinner d (recordedChallengerAttempt s d)
                   (recordedOpponentAttempt s d) uid jc tt bc bj,
                 completed_at := some now }) := by
      refine storeInv_setDuel_mono _ d _ hmem rfl ?_ hworking
      intro P hP hpx
      exfalso
      simp [isOpen] at hpx
    unfold adjudicate
    dsimp only
    split
    · split
      · split
        · exact storeInv_awardXp _ _ _ _ _ hw1 h
        · exact hw1
      · exact hw1
    · exact hworking

/-- Every reachable store satisfies the invariant (question
difficulties are positive, per the data model's 1–5 scale). -/
theorem storeInv_reachable (env : Env)
    (hwf : ∀ q ∈ env, 0 < q.difficulty) (s : Store)
    (h : Reachable env s) : StoreInv s := by
  induction h with
  | init attempts users n =>
    refine ⟨by simp, by simp, ?_⟩
    intro P hP
    unfold activeCount
    simp
  | created s s' qid uid now did hr hok ih =>
    exact storeInv_createDuel env hwf s qid uid now s' did ih hok
  | joined s s' did uid hr hok ih =>
    exact storeInv_joinDuel s did uid s' ih hok
  | matched s did now hr ih =>
    exact storeInv_attemptMatchmaking env hwf s did now ih
  | submitted s s' did uid jc tt bc bj lg now r hr hok ih =>
    exact storeInv_submitSolution env s did uid jc tt bc bj lg now s' r ih hok
  | cleaned s now hr ih =>
    exact storeInv_cleanupOldDuels s now ih
  | external s attempts users hr ih =>
    exact storeInv_congr rfl rfl ih

/-- `create` rejects a caller who already has an open duel (given the
question checks pass, which the source tests first). -/
theorem createDuel_already_in_duel (env : Env) (s : Store) (qid : Nat)
    (uid : Int) (now : Int) (q : Question)
    (hq : getQuestion env qid = some q) (hcode : q.qtype = "code")
    (hbusy : hasActiveDuel s uid = true) :
    createDuel env s qid uid now = Except.error DuelError.alreadyInDuel := by
  unfold createDuel
  rw [hq]
  dsimp only
  rw [if_neg (by simp [hcode]), if_pos hbusy]

/-- `join` rejects a caller who already has an open duel (given the
duel is otherwise joinable, which the source tests first). -/
theorem joinDuel_already_in_duel (s : Store) (did : Nat) (uid : Int)
    (duel : Duel) (hd : getDuel s did = some duel)
    (hw : duel.status = DuelStatus.waiting)
    (hne : duel.challenger_id ≠ uid) (hop : duel.opponent_id = none)
    (hbusy : hasActiveDuel s uid = true) :
    joinDuel s did uid = Except.error DuelError.alreadyInDuel := by
  unfold joinDuel
  rw [hd]
  dsimp only
  rw [if_neg (by simp [hw]), if_neg (by simp [hne]),
    if_neg (by simp [hop]), if_pos hbusy]

/-- Mapping a key-preserving update over exactly the rows whose key
matches a `find?`-found element updates the found element in place. -/
theorem find?_map_update {α β : Type} [BEq β] [LawfulBEq β] (key : α → β)
    (g : α → α) (l : List α) (k : β) (e : α)
    (hg : ∀ x, key x = key e → key (g x) = key x)
    (h : l.find? (fun x => key x == k) = some e) :
    (l.map (fun x => if key x == key e then g x else x)).find?
        (fun x => key x == k) = some (g e) := by
  have hek : key e = k := by simpa using List.find?_some h
  induction l with
  | nil => simp at h
  | cons a t ih =>
    rcases hpa : (key a == k) with _ | _
    · have hne : ¬(key a == key e) = true := by
        simp only [beq_eq_false_iff_ne, ne_eq] at hpa
        simp only [beq_iff_eq]
        intro hc; exact hpa (hc.trans hek)
      have h' : t.find? (fun x => key x == k) = some e := by
        rw [List.find?_cons_of_neg] at h
        · exact h
        · simpa using hpa
      have hrec := ih h'
      simp only [List.map_cons, if_neg hne]
      rw [List.find?_cons_of_neg]
      · exact hrec
      · simpa using hpa
    · have hae : a = e := by
        rw [List.find?_cons_of_pos] at h
        · simpa using h
        · simpa using hpa
      subst hae
      have hhead : (if (key a == key a) = true then g a else a) = g a := by simp
      simp only [List.map_cons, hhead]
      rw [List.find?_cons_of_pos]
      simp [hg a rfl, hek]

/-- `setDuel` with a same-id row replaces the row `getDuel` finds. -/
theorem getDuel_setDuel {s : Store} {did : Nat} {e d' : Duel}
    (h : getDuel s did = some e) (hk : d'.id = e.id) :
    getDuel (setDuel s d') did = some d' := by
  unfold getDuel setDuel
  rw [hk]
  simpa using find?_map_update Duel.id (fun _ => d') s.duels did e
    (fun x hx => hk.trans hx.symm) h

/-- A successful `award_xp` does not touch the duels table. -/
theorem awardXp_ok_duels (w c : Store) (uid : Int) (a : Int) :
    (awardXp w c uid a LedgerOutcome.ok).duels = w.duels := by
  unfold awardXp
  cases getUser w uid <;> rfl

/-- A successful `award_xp` adds the amount to the user's running XP. -/
theorem awardXp_ok_getUser (w c : Store) (uid : Int) (a : Int) (u : Account)
    (h : getUser w uid = some u) :
    getUser (awardXp w c uid a LedgerOutcome.ok) uid =
      some { u with xp := u.xp + a } := by
  unfold awardXp
  rw [h]
  unfold getUser at h ⊢
  have hu : u.id = uid := by simpa using List.find?_some h
  simpa using
    find?_map_update Account.id (fun v => { v with xp := v.xp + a })
      w.users uid u (fun x _ => rfl) h

/-- Splitting a list by a Boolean predicate preserves its length. -/
theorem length_filter_not_add {α : Type} (l : List α) (p : α → Bool) :
    (l.filter p).length + (l.filter (fun a => !p a)).length = l.length := by
  induction l with
  | nil => simp
  | cons a t ih =>
    cases hpa : p a <;> simp [List.filter_cons, hpa] <;> omega

/-- The winner reported by the adjudication body is exactly
`duelWinner` over the committed attempt queries. -/
theorem adjudicate_result_winner (s : Store) (duel : Duel) (q : Question)
    (uid : Int) (jc : Bool) (tt : Int) (bc : Bool) (bj : Int)
    (lg : LedgerOutcome) (now : Int) :
    (adjudicate s duel q uid jc tt bc bj lg now).2.winner_id =
      duelWinner duel (recordedChallengerAttempt s duel)
        (recordedOpponentAttempt s duel) uid jc tt bc bj := by
  unfold adjudicate
  dsimp only
  split
  · split
    · split <;> simp_all
    · simp_all
  · rfl

/-- `submit_solution` on an ACTIVE duel by a participant, with the
question present, runs the adjudication body. -/
theorem submitSolution_active {env : Env} {s : Store} {did : Nat} {uid : Int}
    {jc : Bool} {tt : Int} {bc : Bool} {bj : Int} {lg : LedgerOutcome}
    {now : Int} {d : Duel} {q : Question}
    (hd : getDuel s did = some d) (hact : d.status = DuelStatus.active)
    (hpart : d.challenger_id = uid ∨ d.opponent_id = some uid)
    (hq : getQuestion env d.question_id = some q) :
    submitSolution env s did uid jc tt bc bj lg now =
      Except.ok (adjudicate s d q uid jc tt bc bj lg now) := by
  unfold submitSolution
  rw [hd]
  have h1 : ¬d.status ≠ DuelStatus.active := by simp [hact]
  have h2 : ¬(d.challenger_id ≠ uid ∧ d.opponent_id ≠ some uid) := by
    rcases hpart with h | h <;> simp [h]
  have h3 : ¬d.status = DuelStatus.completed := by simp [hact]
  simp [h1, h2, h3, hq]

/-- `getDuel` only reads the duels table. -/
theorem getDuel_congr {s₁ s₂ : Store} (h : s₁.duels = s₂.duels) (did : Nat) :
    getDuel s₁ did = getDuel s₂ did := by
  unfold getDuel
  rw [h]

/-- When the adjudication completes the duel (winner found or both
sides recorded) under a normally behaving ledger, the duels table is
that of `setDuel` with the completed row. -/
theorem adjudicate_ok_duels_complete (s : Store) (duel : Duel) (q : Question)
    (uid : Int) (jc : Bool) (tt : Int) (bc : Bool) (bj : Int) (now : Int)
    (hC : ((duelWinner duel (recordedChallengerAttempt s duel)
        (recordedOpponentAttempt s duel) uid jc tt bc bj).isSome ||
      bothSidesRecorded s duel) = true) :
    (adjudicate s duel q uid jc tt bc bj LedgerOutcome.ok now).1.duels =
      (setDuel s
        { duel with status := DuelStatus.completed,
                    winner_id := duelWinner duel (recordedChallengerAttempt s duel)
                      (recordedOpponentAttempt s duel) uid jc tt bc bj,
                    completed_at := some now }).duels := by
  unfold adjudicate
  dsimp only
  rw [if_pos hC]
  cases hwin : duelWinner duel (recordedChallengerAttempt s duel)
      (recordedOpponentAttempt s duel) uid jc tt bc bj with
  | none => simp [hwin, setDuel]
  | some w =>
    by_cases hp : 0 < w
    · simp only [hwin, hp, if_pos]
      rw [awardXp_ok_duels]
      simp [setDuel]
    · simp only [hwin, hp, if_neg]
      simp [setDuel]

/-- When the adjudication finds no winner and not both sides have
recorded attempts, only the new attempt row is committed. -/
theorem adjudicate_not_complete (s : Store) (duel : Duel) (q : Question)
    (uid : Int) (jc : Bool) (tt : Int) (bc : Bool) (bj : Int)
    (lg : LedgerOutcome) (now : Int)
    (hC : ((duelWinner duel (recordedChallengerAttempt s duel)
        (recordedOpponentAttempt s duel) uid jc tt bc bj).isSome ||
      bothSidesRecorded s duel) = false) :
    adjudicate s duel q uid jc tt bc bj lg now =
      ({ s with attempts := s.attempts ++
          [{ user_id := uid, question_id := duel.question_id,
             is_correct := jc, time_taken := tt, created_at := now }] },
       { winner_id := none, xp_awarded := 0 }) := by
  have hwin : duelWinner duel (recordedChallengerAttempt s duel)
      (recordedOpponentAttempt s duel) uid jc tt bc bj = none := by
    cases hw : duelWinner duel (recordedChallengerAttempt s duel)
        (recordedOpponentAttempt s duel) uid jc tt bc bj with
    | none => rfl
    | some w => rw [hw] at hC; simp at hC
  unfold adjudicate
  dsimp only
  rw [if_neg (by simp [hC])]
  simp [hwin]

/-- Completing with a winner of negative identity (or `winner = some w`
with `w ≤ 0`) never touches the users table, under any ledger
behaviour. -/
theorem adjudicate_users_winner_nonpos (s : Store) (duel : Duel)
    (q : Question) (uid : Int) (jc : Bool) (tt : Int) (bc : Bool) (bj : Int)
    (lg : LedgerOutcome) (now : Int) (w : Int)
    (hwin : duelWinner duel (recordedChallengerAttempt s duel)
        (recordedOpponentAttempt s duel) uid jc tt bc bj = some w)
    (hnp : ¬0 < w) :
    (adjudicate s duel q uid jc tt bc bj lg now).1.users = s.users := by
  unfold adjudicate
  dsimp only
  rw [hwin]
  have hC : (((some w : Option Int)).isSome ||
      bothSidesRecorded s duel) = true := by simp
  rw [if_pos hC]
  simp [hnp, setDuel]

/-- Completing with a positive winner under a normal ledger adds the
duel XP to the winner's row. -/
theorem adjudicate_users_winner_pos (s : Store) (duel : Duel) (q : Question)
    (uid : Int) (jc : Bool) (tt : Int) (bc : Bool) (bj : Int) (now : Int)
    (w : Int) (u : Account)
    (hwin : duelWinner duel (recordedChallengerAttempt s duel)
        (recordedOpponentAttempt s duel) uid jc tt bc bj = some w)
    (hp : 0 < w) (hu : getUser s w = some u) :
    getUser (adjudicate s duel q uid jc tt bc bj LedgerOutcome.ok now).1 w =
      some { u with xp := u.xp + Int.ofNat (duelXp q) } := by
  unfold adjudicate
  dsimp only
  rw [hwin]
  have hC : (((some w : Option Int)).isSome ||
      bothSidesRecorded s duel) = true := by simp
  rw [if_pos hC]
  simp only [hp, if_pos]
  apply awardXp_ok_getUser
  exact hu

/-- Completing with no winner (both sides recorded) commits the
completed row with `winner_id` unset, under any ledger behaviour. -/
theorem adjudicate_duels_winner_none (s : Store) (duel : Duel) (q : Question)
    (uid : Int) (jc : Bool) (tt : Int) (bc : Bool) (bj : Int)
    (lg : LedgerOutcome) (now : Int)
    (hwin : duelWinner duel (recordedChallengerAttempt s duel)
        (recordedOpponentAttempt s duel) uid jc tt bc bj = none)
    (hB : bothSidesRecorded s duel = true) :
    (adjudicate s duel q uid jc tt bc bj lg now).1.duels =
      (setDuel s
        { duel with status := DuelStatus.completed, winner_id := none,
                    completed_at := some now }).duels := by
  unfold adjudicate
  dsimp only
  rw [hwin]
  rw [if_pos (by simp [hB])]
  simp [setDuel]

/-! ### C3: COMPLETED (and WAITING) duels reject submissions -/

/-- C3: for a duel whose status is COMPLETED or WAITING, `submit`
fails with the duel-not-active error.  The operation raises before any
mutation, so the error result carries no store: status, `winner_id`
and `completed_at` are untouched. -/
theorem submit_rejects_non_active (env : Env) (s : Store) (did : Nat)
    (uid : Int) (jc : Bool) (tt : Int) (bc : Bool) (bj : Int)
    (lg : LedgerOutcome) (now : Int) (d : Duel)
    (hd : getDuel s did = some d)
    (hst : d.status = DuelStatus.completed ∨ d.status = DuelStatus.waiting) :
    submitSolution env s did uid jc tt bc bj lg now =
      Except.error DuelError.duelNotActive := by
  unfold submitSolution
  rw [hd]
  have : d.status ≠ DuelStatus.active := by
    rcases hst with h | h <;> simp [h]
  simp [this]

/-- Witness for C3 at a concrete completed duel. -/
theorem submit_rejects_non_active_witness :
    submitSolution exEnv
        ⟨[⟨1, 1, some 2, 1, DuelStatus.completed, some 1, 0, some 9⟩], [],
          [], 2⟩ 1 2 true 3 false 0 LedgerOutcome.ok 10 =
      Except.error DuelError.duelNotActive :=
  submit_rejects_non_active exEnv _ 1 2 true 3 false 0 LedgerOutcome.ok 10
    ⟨1, 1, some 2, 1, DuelStatus.completed, some 1, 0, some 9⟩
    (by decide) (Or.inl rfl)

/-! ### C7: at most one open duel per participant -/

/-- C7: in every store reachable through the engine's operations (with
the data model's positive 1–5 question difficulties), every genuine
participant — a positive identity; bot identities are synthetic and
shared across duels by design — is challenger or opponent of at most
one WAITING/ACTIVE duel; and `create` and `join` fail with the
already-in-duel error, changing nothing (errors return no store), when
the caller already has such a duel and the checks the source performs
first (question exists and is code-type; duel exists, is WAITING, is
someone else's, and has no opponent) pass. -/
theorem participant_exclusivity (env : Env)
    (hwf : ∀ q ∈ env, 0 < q.difficulty) (s : Store)
    (hs : Reachable env s) :
    (∀ P : Int, 0 < P → activeCount s P ≤ 1) ∧
    (∀ (qid : Nat) (uid : Int) (now : Int) (q : Question),
      getQuestion env qid = some q → q.qtype = "code" →
      hasActiveDuel s uid = true →
      createDuel env s qid uid now = Except.error DuelError.alreadyInDuel) ∧
    (∀ (did : Nat) (uid : Int) (d : Duel),
      getDuel s did = some d → d.status = DuelStatus.waiting →
      d.challenger_id ≠ uid → d.opponent_id = none →
      hasActiveDuel s uid = true →
      joinDuel s did uid = Except.error DuelError.alreadyInDuel) := by
  refine ⟨(storeInv_reachable env hwf s hs).2.2, ?_, ?_⟩
  · intro qid uid now q hq hcode hbusy
    exact createDuel_already_in_duel env s qid uid now q hq hcode hbusy
  · intro did uid d hd hw hne hop hbusy
    exact joinDuel_already_in_duel s did uid d hd hw hne hop hbusy

/-- Witness for C7 on the reachable store `exMixed` (an ACTIVE duel of
users 1 and 2 plus a WAITING duel of user 3): user 1's count is ≤ 1, a
second create by the busy user 2 fails with already-in-duel, and the
busy user 1 cannot join user 3's waiting duel. -/
theorem participant_exclusivity_witness :
    activeCount exMixed 1 ≤ 1 ∧
    createDuel exEnv exMixed 1 2 6 = Except.error DuelError.alreadyInDuel ∧
    joinDuel exMixed 2 1 = Except.error DuelError.alreadyInDuel := by
  have hreach : Reachable exEnv exMixed :=
    Reachable.created exActive exMixed 1 3 5 2
      (Reachable.joined exWaiting exActive 1 2
        (Reachable.created exStore0 exWaiting 1 1 0 1
          (Reachable.init [] [⟨1, 100⟩, ⟨2, 150⟩] 1) rfl) rfl) rfl
  obtain ⟨h1, h2, h3⟩ := participant_exclusivity exEnv (by decide) exMixed
    hreach
  refine ⟨h1 1 (by decide), ?_, ?_⟩
  · exact h2 1 2 6 ⟨1, "code", 3, 30⟩ (by decide) rfl (by decide)
  · exact h3 2 1 ⟨2, 3, none, 1, DuelStatus.waiting, none, 5, none⟩
      (by decide) rfl (by decide) rfl (by decide)

/-! ### C1: first correct submission wins a human-vs-human duel -/

/-- C1: in an ACTIVE human-vs-human duel, a submission the judge finds
correct, made while the other side's most recent recorded attempt since
duel creation is absent or incorrect, wins: the duel becomes COMPLETED
with `winner_id` the submitter, irrespective of either side's elapsed
time (`tt` is arbitrary and never compared). -/
theorem first_correct_wins (env : Env) (s : Store) (did : Nat)
    (uid oid : Int) (tt : Int) (bc : Bool) (bj : Int) (now : Int)
    (d : Duel) (q : Question)
    (hd : getDuel s did = some d) (hact : d.status = DuelStatus.active)
    (hopp : d.opponent_id = some oid) (hpos : 0 < oid)
    (hne : d.challenger_id ≠ oid)
    (hpart : uid = d.challenger_id ∨ uid = oid)
    (hq : getQuestion env d.question_id = some q)
    (hother : attemptAbsentOrWrong (latestAttemptSince s
        (if uid = d.challenger_id then oid else d.challenger_id)
        d.question_id d.created_at) = true) :
    ∃ s' r, submitSolution env s did uid true tt bc bj LedgerOutcome.ok now =
        Except.ok (s', r) ∧ r.winner_id = some uid ∧
      ∃ d', getDuel s' did = some d' ∧ d'.status = DuelStatus.completed ∧
        d'.winner_id = some uid ∧ d'.completed_at = some now := by
  have hpart' : d.challenger_id = uid ∨ d.opponent_id = some uid := by
    rcases hpart with h | h
    · exact Or.inl h.symm
    · exact Or.inr (by rw [hopp, h])
  have hsub := @submitSolution_active env s did uid true tt bc bj
    LedgerOutcome.ok now d q hd hact hpart' hq
  have hOA : recordedOpponentAttempt s d =
      latestAttemptSince s oid d.question_id d.created_at := by
    unfold recordedOpponentAttempt
    rw [hopp]
    simp [hpos]
  have hwin : duelWinner d (recordedChallengerAttempt s d)
      (recordedOpponentAttempt s d) uid true tt bc bj = some uid := by
    have hnneg : ¬oid < 0 := by omega
    unfold duelWinner humanWinner
    rw [hopp]
    rcases hpart with h | h
    · rw [if_pos h] at hother
      simp [hnneg, h, hOA, hother]
    · have hneu : uid ≠ d.challenger_id := by
        rw [h]; exact fun hc => hne hc.symm
      rw [if_neg hneu] at hother
      have hcA : attemptAbsentOrWrong (recordedChallengerAttempt s d) = true := hother
      simp [hnneg, hneu, hcA]
  have hC : ((duelWinner d (recordedChallengerAttempt s d)
      (recordedOpponentAttempt s d) uid true tt bc bj).isSome ||
      bothSidesRecorded s d) = true := by simp [hwin]
  have hduels := adjudicate_ok_duels_complete s d q uid true tt bc bj now hC
  rw [hwin] at hduels
  refine ⟨(adjudicate s d q uid true tt bc bj LedgerOutcome.ok now).1,
    (adjudicate s d q uid true tt bc bj LedgerOutcome.ok now).2,
    hsub.trans rfl, ?_, ?_⟩
  · rw [adjudicate_result_winner]
    exact hwin
  · have hset : getDuel (setDuel s
        { d with status := DuelStatus.completed, winner_id := some uid,
                 completed_at := some now }) did =
        some { d with status := DuelStatus.completed, winner_id := some uid,
                      completed_at := some now } :=
      getDuel_setDuel hd rfl
    exact ⟨_, (getDuel_congr hduels did).trans hset, rfl, rfl, rfl⟩

/-- Witness for C1: user 2 has an incorrect attempt recorded, user 1
submits a correct solution and wins. -/
theorem first_correct_wins_witness :
    ∃ s' r, submitSolution exEnv exOppWrong 1 1 true 9 false 0
        LedgerOutcome.ok 9 = Except.ok (s', r) ∧ r.winner_id = some 1 ∧
      ∃ d', getDuel s' 1 = some d' ∧ d'.status = DuelStatus.completed ∧
        d'.winner_id = some 1 ∧ d'.completed_at = some 9 :=
  first_correct_wins exEnv exOppWrong 1 1 2 9 false 0 9
    ⟨1, 1, some 2, 1, DuelStatus.active, none, 0, none⟩ ⟨1, "code", 3, 30⟩
    (by decide) rfl rfl (by decide) (by decide) (Or.inl rfl) (by decide)
    (by decide)

/-! ### C4: both-correct bot duels are decided by strict time comparison -/

/-- C4: in a bot duel where the human submission is correct and the
simulated bot outcome is correct, the human wins exactly when the
reported `time_taken` is strictly below the bot's simulated response
time; otherwise the bot identity is recorded as `winner_id`. -/
theorem bot_tiebreak_by_time (env : Env) (s : Store) (did : Nat)
    (uid b : Int) (tt bj : Int) (now : Int) (d : Duel) (q : Question)
    (hd : getDuel s did = some d) (hact : d.status = DuelStatus.active)
    (hch : d.challenger_id = uid) (hopp : d.opponent_id = some b)
    (hb : b < 0) (hu : 0 < uid)
    (hq : getQuestion env d.question_id = some q) :
    ∃ s' r, submitSolution env s did uid true tt true bj LedgerOutcome.ok now =
        Except.ok (s', r) ∧
      r.winner_id = some (if tt < simulateBotTime b bj then uid else b) ∧
      ∃ d', getDuel s' did = some d' ∧ d'.status = DuelStatus.completed ∧
        d'.winner_id = some (if tt < simulateBotTime b bj then uid else b) ∧
        (d'.winner_id = some uid ↔ tt < simulateBotTime b bj) := by
  have hsub := @submitSolution_active env s did uid true tt true bj
    LedgerOutcome.ok now d q hd hact (Or.inl hch) hq
  have hwin : duelWinner d (recordedChallengerAttempt s d)
      (recordedOpponentAttempt s d) uid true tt true bj =
        some (if tt < simulateBotTime b bj then uid else b) := by
    unfold duelWinner
    rw [hopp]
    by_cases ht : tt < simulateBotTime b bj <;> simp [hb, ht]
  have hC : ((duelWinner d (recordedChallengerAttempt s d)
      (recordedOpponentAttempt s d) uid true tt true bj).isSome ||
      bothSidesRecorded s d) = true := by simp [hwin]
  have hduels := adjudicate_ok_duels_complete s d q uid true tt true bj now hC
  rw [hwin] at hduels
  refine ⟨(adjudicate s d q uid true tt true bj LedgerOutcome.ok now).1,
    (adjudicate s d q uid true tt true bj LedgerOutcome.ok now).2,
    hsub.trans rfl, ?_, ?_⟩
  · rw [adjudicate_result_winner]
    exact hwin
  · have hset : getDuel (setDuel s
        { d with status := DuelStatus.completed,
                 winner_id := some (if tt < simulateBotTime b bj then uid else b),
                 completed_at := some now }) did =
        some ({ d with
                 status := DuelStatus.completed,
                 winner_id := some (if tt < simulateBotTime b bj then uid else b),
                 completed_at := some now }) :=
      getDuel_setDuel hd rfl
    refine ⟨_, (getDuel_congr hduels did).trans hset, rfl, rfl, ?_⟩
    by_cases ht : tt < simulateBotTime b bj
    · simp [ht]
    · have : b ≠ uid := by omega
      simp [ht, this]

/-- Witness for C4 on the tier-3 bot duel: bot time is `8 + 2 = 10`;
with `time_taken = 10` (not strictly lower) the bot wins. -/
theorem bot_tiebreak_by_time_witness :
    ∃ s' r, submitSolution exEnv exBotDuel 1 1 true 10 true 2
        LedgerOutcome.ok 50 = Except.ok (s', r) ∧
      r.winner_id = some (if (10 : Int) < simulateBotTime (-3) 2 then 1 else -3) ∧
      ∃ d', getDuel s' 1 = some d' ∧ d'.status = DuelStatus.completed ∧
        d'.winner_id = some (if (10 : Int) < simulateBotTime (-3) 2 then 1 else -3) ∧
        (d'.winner_id = some 1 ↔ (10 : Int) < simulateBotTime (-3) 2) :=
  bot_tiebreak_by_time exEnv exBotDuel 1 1 (-3) 10 2 50
    ⟨1, 1, some (-3), 1, DuelStatus.active, none, 0, none⟩ ⟨1, "code", 3, 30⟩
    (by decide) rfl rfl rfl (by decide) (by decide) (by decide)

/-! ### C5: the winner's XP credit is base + 50% of base; bots get none -/

/-- C5: whenever a `submit` call (with a normally behaving ledger)
leaves the duel with a winner recorded, a positive (human) winner whose
user row exists is credited `base + int(base * 0.5)` XP — for base 30
that is 45 — while a negative (bot) winner leaves every user row
untouched. -/
theorem winner_xp_credit (env : Env) (s : Store) (did : Nat) (uid : Int)
    (jc : Bool) (tt : Int) (bc : Bool) (bj : Int) (now : Int)
    (s' : Store) (r : SubmitResult) (d d' : Duel) (q : Question) (w : Int)
    (hd : getDuel s did = some d) (_hact : d.status = DuelStatus.active)
    (hdw : d.winner_id = none)
    (hq : getQuestion env d.question_id = some q)
    (hok : submitSolution env s did uid jc tt bc bj LedgerOutcome.ok now =
      Except.ok (s', r))
    (hd' : getDuel s' did = some d') (hw : d'.winner_id = some w) :
    (0 < w → ∀ u, getUser s w = some u →
      getUser s' w = some { u with xp := u.xp + Int.ofNat (q.xp_reward + q.xp_reward / 2) }) ∧
    (w < 0 → s'.users = s.users) := by
  obtain ⟨q', hq', heq⟩ := submitSolution_ok_inv hd hok
  rw [hq] at hq'
  injection hq' with hq''
  subst hq''
  have hs' : s' = (adjudicate s d q uid jc tt bc bj LedgerOutcome.ok now).1 :=
    congrArg Prod.fst heq
  cases hwin : duelWinner d (recordedChallengerAttempt s d)
      (recordedOpponentAttempt s d) uid jc tt bc bj with
  | none =>
    exfalso
    by_cases hB : bothSidesRecorded s d
    · have hduels := adjudicate_duels_winner_none s d q uid jc tt bc bj
        LedgerOutcome.ok now hwin hB
      have hset : getDuel (setDuel s
          { d with status := DuelStatus.completed, winner_id := none,
                   completed_at := some now }) did =
          some ({ d with
                   status := DuelStatus.completed, winner_id := none,
                   completed_at := some now }) :=
        getDuel_setDuel hd rfl
      have hgd : getDuel s' did = some ({ d with
          status := DuelStatus.completed, winner_id := none,
          completed_at := some now }) := by
        rw [hs', getDuel_congr hduels did]
        exact hset
      rw [hgd] at hd'
      injection hd' with h
      rw [← h] at hw
      simp at hw
    · have hC : ((duelWinner d (recordedChallengerAttempt s d)
          (recordedOpponentAttempt s d) uid jc tt bc bj).isSome ||
          bothSidesRecorded s d) = false := by
        simp [hwin]
        simpa using hB
      have hnc := adjudicate_not_complete s d q uid jc tt bc bj
        LedgerOutcome.ok now hC
      have hgd : getDuel s' did = some d := by
        rw [hs', hnc]
        exact hd
      rw [hgd] at hd'
      injection hd' with h
      rw [← h] at hw
      rw [hdw] at hw
      simp at hw
  | some w' =>
    have hC : ((duelWinner d (recordedChallengerAttempt s d)
        (recordedOpponentAttempt s d) uid jc tt bc bj).isSome ||
        bothSidesRecorded s d) = true := by simp [hwin]
    have hduels := adjudicate_ok_duels_complete s d q uid jc tt bc bj now hC
    rw [hwin] at hduels
    have hset : getDuel (setDuel s
        { d with status := DuelStatus.completed, winner_id := some w',
                 completed_at := some now }) did =
        some ({ d with
                 status := DuelStatus.completed, winner_id := some w',
                 completed_at := some now }) :=
      getDuel_setDuel hd rfl
    have hgd : getDuel s' did = some ({ d with
        status := DuelStatus.completed, winner_id := some w',
        completed_at := some now }) := by
      rw [hs', getDuel_congr hduels did]
      exact hset
    rw [hgd] at hd'
    injection hd' with h
    rw [← h] at hw
    simp only [Duel.mk.injEq] at hw
    have hww : w' = w := by
      have := hw
      simp at this
      omega
    subst hww
    constructor
    · intro hpos u hu
      rw [hs']
      exact adjudicate_users_winner_pos s d q uid jc tt bc bj now w' u hwin
        hpos hu
    · intro hneg
      rw [hs']
      exact adjudicate_users_winner_nonpos s d q uid jc tt bc bj
        LedgerOutcome.ok now w' hwin (by omega)

/-- Witness for C5: winner 1 goes from 100 XP to 145 XP (base 30 plus
bonus 15). -/
theorem winner_xp_credit_witness :
    getUser exWon 1 = some ⟨1, 145⟩ :=
  (winner_xp_credit exEnv exOppWrong 1 1 true 9 false 0 9 exWon
      ⟨some 1, 45⟩ ⟨1, 1, some 2, 1, DuelStatus.active, none, 0, none⟩
      ⟨1, 1, some 2, 1, DuelStatus.completed, some 1, 0, some 9⟩
      ⟨1, "code", 3, 30⟩ 1
      (by decide) rfl rfl (by decide) rfl (by decide) rfl).1
    (by decide) ⟨1, 100⟩ (by decide)

/-! ### C2: a no-winner submission leaves the duel ACTIVE — corrected -/

/-- C2 counterexample: in the human duel where both sides already have
recorded (incorrect) attempts, a further incorrect submission
determines no winner (`winner_id = none` in the outcome), yet the duel
does NOT remain ACTIVE: it transitions to COMPLETED, refuting the claim
as stated. -/
theorem no_winner_stays_active_cex :
    (submitSolution exEnv exBothWrong 1 1 false 7 false 0
        LedgerOutcome.ok 7).toOption.map
      (fun p => (p.2.winner_id, (getDuel p.1 1).map Duel.status)) =
    some (none, some DuelStatus.completed) := by decide

/-- C2 amended: if a submit call determines no winner, the duel remains
ACTIVE (with `winner_id` and `completed_at` unset) only when the two
sides' recorded attempts since creation are not yet both present (for a
bot opponent the challenger's own earlier attempt counts as both); when
both sides already have recorded attempts the duel instead transitions
to COMPLETED with `winner_id` unset. -/
theorem no_winner_outcome (env : Env) (s : Store) (did : Nat) (uid : Int)
    (jc : Bool) (tt : Int) (bc : Bool) (bj : Int) (lg : LedgerOutcome)
    (now : Int) (s' : Store) (r : SubmitResult) (d : Duel) (q : Question)
    (hd : getDuel s did = some d) (hact : d.status = DuelStatus.active)
    (hdw : d.winner_id = none) (hdc : d.completed_at = none)
    (hq : getQuestion env d.question_id = some q)
    (hok : submitSolution env s did uid jc tt bc bj lg now = Except.ok (s', r))
    (hnw : r.winner_id = none) :
    ∃ d', getDuel s' did = some d' ∧ d'.winner_id = none ∧
      (bothSidesRecorded s d = true →
        d'.status = DuelStatus.completed ∧ d'.completed_at = some now) ∧
      (bothSidesRecorded s d = false →
        d'.status = DuelStatus.active ∧ d'.completed_at = none ∧
        s'.duels = s.duels) := by
  obtain ⟨q', hq', heq⟩ := submitSolution_ok_inv hd hok
  rw [hq] at hq'
  injection hq' with hq''
  subst hq''
  have hs' : s' = (adjudicate s d q uid jc tt bc bj lg now).1 :=
    congrArg Prod.fst heq
  have hr : r = (adjudicate s d q uid jc tt bc bj lg now).2 :=
    congrArg Prod.snd heq
  have hwin : duelWinner d (recordedChallengerAttempt s d)
      (recordedOpponentAttempt s d) uid jc tt bc bj = none := by
    rw [← adjudicate_result_winner s d q uid jc tt bc bj lg now, ← hr]
    exact hnw
  by_cases hB : bothSidesRecorded s d
  · have hduels := adjudicate_duels_winner_none s d q uid jc tt bc bj lg now
      hwin hB
    have hset : getDuel (setDuel s
        { d with status := DuelStatus.completed, winner_id := none,
                 completed_at := some now }) did =
        some ({ d with
                 status := DuelStatus.completed, winner_id := none,
                 completed_at := some now }) :=
      getDuel_setDuel hd rfl
    refine ⟨_, by rw [hs', getDuel_congr hduels did]; exact hset, rfl, ?_, ?_⟩
    · intro _
      exact ⟨rfl, rfl⟩
    · intro hB'
      rw [hB] at hB'
      cases hB'
  · have hC : ((duelWinner d (recordedChallengerAttempt s d)
        (recordedOpponentAttempt s d) uid jc tt bc bj).isSome ||
        bothSidesRecorded s d) = false := by
      simp [hwin]
      simpa using hB
    have hnc := adjudicate_not_complete s d q uid jc tt bc bj lg now hC
    have hgd : getDuel s' did = some d := by
      rw [hs', hnc]
      exact hd
    refine ⟨d, hgd, hdw, ?_, ?_⟩
    · intro hB'
      exact absurd hB' (by simpa using hB)
    · intro _
      refine ⟨hact, hdc, ?_⟩
      rw [hs', hnc]

/-- Witness for the amended C2 at the concrete both-recorded store: the
duel completes with `winner_id` unset. -/
theorem no_winner_outcome_witness :
    ∃ d', getDuel exNoWinnerDone 1 = some d' ∧ d'.winner_id = none ∧
      (bothSidesRecorded exBothWrong
          ⟨1, 1, some 2, 1, DuelStatus.active, none, 0, none⟩ = true →
        d'.status = DuelStatus.completed ∧ d'.completed_at = some 7) ∧
      (bothSidesRecorded exBothWrong
          ⟨1, 1, some 2, 1, DuelStatus.active, none, 0, none⟩ = false →
        d'.status = DuelStatus.active ∧ d'.completed_at = none ∧
        exNoWinnerDone.duels = exBothWrong.duels) :=
  no_winner_outcome exEnv exBothWrong 1 1 false 7 false 0 LedgerOutcome.ok 7
    exNoWinnerDone ⟨none, 0⟩
    ⟨1, 1, some 2, 1, DuelStatus.active, none, 0, none⟩ ⟨1, "code", 3, 30⟩
    (by decide) rfl rfl rfl (by decide) rfl rfl

/-! ### C9: an XP-credit exception rolls back the COMPLETED transition -/

/-- C9 evaluation: with a normally behaving ledger the winning
submission completes the duel; the identical call with a ledger that
raises inside `award_xp` returns the *unchanged* pre-call store — the
session-wide `rollback()` in `award_xp`'s `except` branch discards the
COMPLETED transition (and the attempt row), leaving the duel ACTIVE
with no winner, while the returned outcome still reports the winner and
the XP amount. -/
theorem xp_raise_rolls_back_completion :
    submitSolution exEnv exOppWrong 1 1 true 9 false 0
        LedgerOutcome.raises 9 = Except.ok (exOppWrong, ⟨some 1, 45⟩) ∧
    (getDuel exOppWrong 1).map Duel.status = some DuelStatus.active ∧
    getUser exOppWrong 1 = some ⟨1, 100⟩ ∧
    (submitSolution exEnv exOppWrong 1 1 true 9 false 0
        LedgerOutcome.ok 9).toOption.map
      (fun p => (getDuel p.1 1).map Duel.status) =
      some (some DuelStatus.completed) :=
  ⟨rfl, by decide, by decide, rfl⟩

/-! ### C8: cleanup reaps exactly the over-age WAITING duels -/

/-- C8: `cleanup` keeps exactly the duels that are not (WAITING and
older than 5 minutes = 300 seconds) — so ACTIVE and COMPLETED duels are
untouched — returns the count of deleted duels, and a second call on
the result, with no duels created in between, returns 0.  Naive
timestamps are interpreted as UTC, which in this integer-seconds
embedding is the identity normalization. -/
theorem cleanup_reaps_exactly_old_waiting (s : Store) (now : Int) :
    (∀ d, d ∈ (cleanupOldDuels s now).1.duels ↔
        d ∈ s.duels ∧ ¬(d.status = DuelStatus.waiting ∧ d.created_at < now - 300)) ∧
    (cleanupOldDuels s now).2 + (cleanupOldDuels s now).1.duels.length = s.duels.length ∧
    (cleanupOldDuels (cleanupOldDuels s now).1 now).2 = 0 := by
  refine ⟨?_, ?_, ?_⟩
  · intro d
    simp [cleanupOldDuels, List.mem_filter]
    tauto
  · exact length_filter_not_add s.duels
      (fun d => d.status == DuelStatus.waiting && decide (d.created_at < now - 300))
  · simp only [cleanupOldDuels, List.filter_filter, List.length_eq_zero]
    rw [List.filter_eq_nil_iff]
    intro a _
    cases a.status == DuelStatus.waiting <;>
      cases decide (a.created_at < now - 300) <;> simp

/-! ### C10: bot response time is clamped at 1 second -/

/-- C10: the simulated bot response time (`max(1, base + jitter)`) is
at least 1 second for every tier and jitter; consequently in a bot duel
a correct human submission with the default `time_taken = 0` wins the
both-correct tie-break. -/
theorem bot_time_at_least_one (env : Env) (s : Store) (did : Nat)
    (uid b bj : Int) (lg : LedgerOutcome) (now : Int) (d : Duel) (q : Question)
    (hd : getDuel s did = some d) (hact : d.status = DuelStatus.active)
    (hch : d.challenger_id = uid) (hopp : d.opponent_id = some b) (hb : b < 0)
    (hq : getQuestion env d.question_id = some q) :
    1 ≤ simulateBotTime b bj ∧
    ∃ s' r, submitSolution env s did uid true 0 true bj lg now =
        Except.ok (s', r) ∧ r.winner_id = some uid := by
  have hmin : 1 ≤ simulateBotTime b bj := le_max_left 1 _
  refine ⟨hmin, ?_⟩
  have hsub := @submitSolution_active env s did uid true 0 true bj
    lg now d q hd hact (Or.inl hch) hq
  refine ⟨(adjudicate s d q uid true 0 true bj lg now).1,
    (adjudicate s d q uid true 0 true bj lg now).2, hsub.trans rfl, ?_⟩
  have hwin : duelWinner d (recordedChallengerAttempt s d)
      (recordedOpponentAttempt s d) uid true 0 true bj = some uid := by
    unfold duelWinner
    rw [hopp]
    have h0 : (0 : Int) < simulateBotTime b bj := lt_of_lt_of_le one_pos hmin
    simp [hb, h0]
  rw [adjudicate_result_winner]
  exact hwin

/-- Witness for C10 on the concrete tier-3 bot duel. -/
theorem bot_time_at_least_one_witness :
    1 ≤ simulateBotTime (-3) 2 ∧
    ∃ s' r, submitSolution exEnv exBotDuel 1 1 true 0 true 2
        LedgerOutcome.ok 50 = Except.ok (s', r) ∧ r.winner_id = some 1 :=
  bot_time_at_least_one exEnv exBotDuel 1 1 (-3) 2 LedgerOutcome.ok 50
    ⟨1, 1, some (-3), 1, DuelStatus.active, none, 0, none⟩ ⟨1, "code", 3, 30⟩
    (by decide) rfl rfl rfl (by decide) (by decide)

/-! ### C6: matchmaking bot fallback after the 30-second grace period -/

/-- C6: for a WAITING duel with no peer duel on the same question, if
the duel has been waiting more than 30 seconds `tryMatch` assigns the
bot whose id is the negative of the question's difficulty and flips the
duel to ACTIVE (returning true); otherwise it changes nothing and
returns false. -/
theorem matchmaking_bot_fallback (env : Env) (s : Store) (did : Nat)
    (now : Int) (d : Duel) (q : Question)
    (hd : getDuel s did = some d) (hw : d.status = DuelStatus.waiting)
    (hpeer : findPeerDuel s d = none)
    (hq : getQuestion env d.question_id = some q) (hdiff : 0 < q.difficulty) :
    (30 < now - d.created_at →
      attemptMatchmaking env s did now =
        (setDuel s { d with opponent_id := some (-q.difficulty),
                            status := DuelStatus.active }, true)) ∧
    (now - d.created_at ≤ 30 →
      attemptMatchmaking env s did now = (s, false)) := by
  unfold attemptMatchmaking
  rw [hd]
  simp only [hw, if_pos rfl, hpeer]
  constructor
  · intro hage
    rw [if_pos hage, hq]
    have : -q.difficulty ≠ 0 := by omega
    simp [this]
  · intro hage
    have hcond : ¬(now - d.created_at > 30) := by omega
    rw [if_neg hcond]
    simp

/-- Witness for C6: the concrete waiting duel gets the tier-3 bot at
age 40 seconds, and is untouched at age 29 seconds. -/
theorem matchmaking_bot_fallback_witness :
    attemptMatchmaking exEnv exWaiting 1 40 =
      (setDuel exWaiting
        { id := 1, challenger_id := 1, opponent_id := some (-3),
          question_id := 1, status := DuelStatus.active, winner_id := none,
          created_at := 0, completed_at := none }, true) ∧
    attemptMatchmaking exEnv exWaiting 1 29 = (exWaiting, false) := by
  constructor
  · exact (matchmaking_bot_fallback exEnv exWaiting 1 40
      ⟨1, 1, none, 1, DuelStatus.waiting, none, 0, none⟩ ⟨1, "code", 3, 30⟩
      (by decide) rfl (by decide) (by decide) (by decide)).1 (by decide)
  · exact (matchmaking_bot_fallback exEnv exWaiting 1 29
      ⟨1, 1, none, 1, DuelStatus.waiting, none, 0, none⟩ ⟨1, "code", 3, 30⟩
      (by decide) rfl (by decide) (by decide) (by decide)).2 (by decide)

end Flashcode
